import Mathlib

/-!
Verification development for the Katana USB audio driver streaming engine
(src/pcm.c and the module file holding the operation gate).  The C functions
relevant to the claims are translated into executable Lean definitions;
machine integers are modelled as Nat with explicit reductions modulo 2^32
where C unsigned arithmetic can wrap on the values involved.
-/

namespace Katana

/-! ### FeedbackTracker (katana_sync_urb_complete, pcm.c lines 1125-1212)

The feedback fields of struct katana_pcm_data that the sync completion
handler reads and writes. -/

structure FeedbackState where
  feedback_value : Nat
  feedback_samples : Nat
  feedback_count : Nat
  feedback_average : Nat
  feedback_valid : Bool
  deriving DecidableEq, Repr

/-- Initial values set in katana_pcm_playback_open (pcm.c lines 381-386). -/
def initFeedback : FeedbackState :=
  { feedback_value := 0, feedback_samples := 0, feedback_count := 0,
    feedback_average := 0, feedback_valid := false }

/-- Parse of the sync payload (pcm.c lines 1139-1153): the local variable
feedback_value starts at 0; a 3-byte payload is read little-endian, a 4-byte
payload likewise (the C result is an unsigned int, hence the reduction mod
2^32); any longer payload leaves the local at 0. -/
def parseFeedback (payload : List Nat) : Nat :=
  if payload.length = 3 then
    payload.getD 0 0 + payload.getD 1 0 * 256 + payload.getD 2 0 * 65536
  else if payload.length = 4 then
    (payload.getD 0 0 + payload.getD 1 0 * 256 + payload.getD 2 0 * 65536 +
      payload.getD 3 0 * 16777216) % 4294967296
  else 0

/-- Range check and tracker update (pcm.c lines 1161-1185): the 10.14
fixed-point value is rounded to samples per frame by adding 8192 and
shifting right 14; it is accepted iff it lies between rate*9/10000 and
rate*11/10000 (C integer division); an accepted value bumps the count and
updates the running average with weight 1/8 (the first accepted sample
initialises the average directly); a rejected value changes nothing. -/
def feedbackUpdate (st : FeedbackState) (rate fv : Nat) : FeedbackState :=
  let samples_per_frame := (fv + 8192) / 16384
  let expected_min := rate * 9 / 10000
  let expected_max := rate * 11 / 10000
  if expected_min ≤ samples_per_frame ∧ samples_per_frame ≤ expected_max then
    { feedback_value := fv
      feedback_samples := samples_per_frame
      feedback_count := st.feedback_count + 1
      feedback_average :=
        if st.feedback_count + 1 = 1 then samples_per_frame
        else (7 * st.feedback_average + samples_per_frame) / 8
      feedback_valid := true }
  else st

/-- State effect of katana_sync_urb_complete on a successful completion
(urb->status = 0) with the given payload: payloads shorter than 3 bytes are
ignored (pcm.c line 1138), otherwise the parsed value is range-checked and
folded into the tracker.  The C function returns void; resubmission of the
sync URB happens regardless of acceptance, so rejection surfaces no error. -/
def katana_sync_urb_complete (st : FeedbackState) (rate : Nat)
    (payload : List Nat) : FeedbackState :=
  if payload.length < 3 then st
  else feedbackUpdate st rate (parseFeedback payload)

/-- Per-packet sample count chosen by the refill path of
katana_urb_complete (pcm.c lines 979-987). -/
def samplesPerPacket (st : FeedbackState) (rate : Nat) : Nat :=
  if st.feedback_valid = true ∧ 0 < st.feedback_samples then st.feedback_samples
  else rate / 1000

/-- One step of the exponential smoothing recurrence stated by the spec. -/
def smoothStep (a s : Nat) : Nat := (7 * a + s) / 8

/-- Smoothed average as stated by the spec: the first sample initialises the
average, each later sample s maps a to (7*a + s)/8. -/
def specSmoothedAvg : List Nat → Nat
  | [] => 0
  | s :: rest => rest.foldl smoothStep s

/-- Last element of a list, or the default when the list is empty. -/
def lastD : List Nat → Nat → Nat
  | [], d => d
  | x :: xs, _ => lastD xs x

/-- Rounded samples-per-frame values of a raw feedback sequence that pass
the range check of katana_sync_urb_complete for the given rate. -/
def acceptedSamples (rate : Nat) (fvs : List Nat) : List Nat :=
  (fvs.map (fun fv => (fv + 8192) / 16384)).filter
    (fun s => decide (rate * 9 / 10000 ≤ s) && decide (s ≤ rate * 11 / 10000))

/-! ### OperationGate (katana_enter_operation in the module source file)

The two Bool arguments are the values of disconnect_in_progress observed at
the first read (before the increment) and at the double-check read (after
the increment); a disconnect beginning concurrently makes them differ.  The
returned list records the atomic updates this call applies to
active_operations, in order. -/

inductive GateOp where
  | inc
  | dec
  deriving DecidableEq, Repr

/-- Model of katana_enter_operation: fail with -ENODEV (-19) without
touching the count when the flag is already set; otherwise increment,
re-read the flag, and on the double-check failing decrement back and fail;
otherwise succeed leaving the count incremented. -/
def katana_enter_operation (d1 d2 : Bool) : Int × List GateOp :=
  if d1 then (-19, [])
  else if d2 then (-19, [GateOp.inc, GateOp.dec])
  else (0, [GateOp.inc])

/-- Net change a sequence of count updates applies to active_operations. -/
def gateDelta : List GateOp → Int
  | [] => 0
  | GateOp.inc :: l => gateDelta l + 1
  | GateOp.dec :: l => gateDelta l - 1

/-! ### Hardware parameter negotiation (katana_pcm_hw_params, pcm.c 478-613) -/

inductive PcmFormat where
  | s16le
  | s24_3le
  | s32le
  deriving DecidableEq, Repr

/-- snd_pcm_format_physical_width for the formats the driver mentions. -/
def physicalWidth : PcmFormat → Nat
  | PcmFormat.s16le => 16
  | PcmFormat.s24_3le => 24
  | PcmFormat.s32le => 32

/-- Bytes per frame as computed at pcm.c line 525. -/
def frameSizeOf (channels : Nat) (fmt : PcmFormat) : Nat :=
  channels * physicalWidth fmt / 8

/-- Configuration fields of struct katana_pcm_data written by hw_params. -/
structure SessionCfg where
  buffer_size : Nat
  period_size : Nat
  period_bytes : Nat
  channels : Nat
  rate : Nat
  format : PcmFormat
  deriving DecidableEq, Repr

/-- Negotiated parameter set delivered to hw_params. -/
structure HwParams where
  buffer_size : Nat
  period_size : Nat
  period_bytes : Nat
  channels : Nat
  rate : Nat
  format : PcmFormat
  buffer_bytes : Nat
  periods : Nat
  deriving DecidableEq, Repr

/-- Parameter storage performed at pcm.c lines 507-512, before any
validation. -/
def storeParams (cfg : SessionCfg) (p : HwParams) : SessionCfg :=
  { cfg with
    buffer_size := p.buffer_size, period_size := p.period_size,
    period_bytes := p.period_bytes, channels := p.channels, rate := p.rate,
    format := p.format }

/-- Model of katana_pcm_hw_params.  The operation gate check and the
defensive private-data and USB-validity checks return -ENODEV (-19); the
parameters are then stored, and validation returns -EINVAL (-22) when the
S24_3LE stereo frame size is not 6, when period_bytes is not frame aligned,
when buffer_bytes differs from period_bytes * periods (a C unsigned-int
product, hence mod 2^32), or when buffer_bytes falls outside
[1536*2, 6144*8] = [3072, 49152].  The buffer allocation steps that follow
a successful validation are external collaborators and are modelled as
succeeding. -/
def katana_pcm_hw_params (disconnecting dataPresent usb_dev_valid : Bool)
    (cfg : SessionCfg) (p : HwParams) : Int × SessionCfg :=
  if disconnecting then (-19, cfg)
  else if dataPresent = false then (-19, cfg)
  else if usb_dev_valid = false then (-19, cfg)
  else
    let cfg := storeParams cfg p
    let frame_size := frameSizeOf cfg.channels cfg.format
    if cfg.format = PcmFormat.s24_3le ∧ cfg.channels = 2 ∧ frame_size ≠ 6 then
      (-22, cfg)
    else if cfg.period_bytes % frame_size ≠ 0 then (-22, cfg)
    else if p.buffer_bytes ≠ cfg.period_bytes * p.periods % 4294967296 then
      (-22, cfg)
    else if p.buffer_bytes < 3072 ∨ 49152 < p.buffer_bytes then (-22, cfg)
    else (0, cfg)

/-! ### Trigger (katana_pcm_trigger, pcm.c 727-867)

The model records the externally visible calls the trigger makes as an
event list: the gate entry attempt, the silence memset of each data URB
buffer, the URB submissions (sync first, then data slot by index), and the
unlink calls issued on failure or stop.  Submission outcomes come from
oracles syncErr and dataErr (0 for success, a negative errno for failure),
standing for the device transport. -/

inductive TriggerCmd where
  | start
  | stop
  | pause_push
  | pause_release
  | other
  deriving DecidableEq, Repr

inductive Event where
  | gate_enter
  | submit_sync
  | memset_silence (i : Nat)
  | submit_data (i : Nat)
  | unlink_sync
  | unlink_data (i : Nat)
  deriving DecidableEq, Repr

/-- Fields of struct katana_pcm_data touched by the trigger. -/
structure TrigState where
  running : Bool
  stream_started : Bool
  hw_ptr : Nat
  last_period_hw_ptr : Nat
  read_ptr : Nat
  deriving DecidableEq, Repr

/-- Scan of an event list: true when a occurs strictly before any
occurrence of b (also when a occurs and b never does). -/
def beforeB (a b : Event) : List Event → Bool
  | [] => false
  | x :: xs => if x = a then true else if x = b then false else beforeB a b xs

/-- The data-URB submission loop of the start trigger (pcm.c 795-828),
iterating the slot index from i for rem further slots: each slot's buffer
is first cleared to silence, then submitted; the loop stops at the first
failed submission, returning its index. -/
def startLoop (dataErr : Nat → Int) : Nat → Nat → Option Nat × List Event
  | _, 0 => (none, [])
  | i, rem + 1 =>
    if dataErr i < 0 then (some i, [Event.memset_silence i, Event.submit_data i])
    else
      let r := startLoop dataErr (i + 1) rem
      (r.1, Event.memset_silence i :: Event.submit_data i :: r.2)

/-- The SNDRV_PCM_TRIGGER_START branch (pcm.c 775-831): flags and cursors
are set, the sync URB is submitted first, then the data URBs; if the sync
submission fails the flags are cleared and the error returned; if data
submission i fails, data URBs i-1 down to 0 and then the sync URB are
unlinked, the flags are cleared, and the error returned. -/
def triggerStart (n : Nat) (st : TrigState) (syncErr : Int)
    (dataErr : Nat → Int) : Int × TrigState × List Event :=
  let st1 : TrigState :=
    { st with
      running := true, stream_started := true, hw_ptr := 0,
      last_period_hw_ptr := 0, read_ptr := 0 }
  if syncErr < 0 then
    (syncErr, { st1 with running := false, stream_started := false },
     [Event.submit_sync])
  else
    let r := startLoop dataErr 0 n
    match r.1 with
    | none => (0, st1, Event.submit_sync :: r.2)
    | some i =>
      (dataErr i, { st1 with running := false, stream_started := false },
       Event.submit_sync :: r.2 ++
         (List.range i).reverse.map Event.unlink_data ++ [Event.unlink_sync])

/-- Model of katana_pcm_trigger.  Stop is classified as a cleanup command
(should_block = 0) and never attempts gate entry; all other commands first
attempt katana_enter_operation, which fails with -ENODEV (-19) once
disconnect is in progress.  Then the defensive data and USB checks run, and
the command dispatch follows pcm.c lines 774-862. -/
def katana_pcm_trigger (cmd : TriggerCmd) (disconnecting dataPresent usb_dev_valid : Bool)
    (n : Nat) (st : TrigState) (syncErr : Int) (dataErr : Nat → Int) :
    Int × TrigState × List Event :=
  let should_block : Bool := match cmd with
    | TriggerCmd.stop => false
    | _ => true
  if should_block && disconnecting then (-19, st, [Event.gate_enter])
  else
    let ev0 : List Event := if should_block then [Event.gate_enter] else []
    if dataPresent = false then (-19, st, ev0)
    else if usb_dev_valid = false then (-19, st, ev0)
    else
      match cmd with
      | TriggerCmd.start =>
        let r := triggerStart n st syncErr dataErr
        (r.1, r.2.1, ev0 ++ r.2.2)
      | TriggerCmd.stop =>
        (0, { st with running := false, stream_started := false },
         ev0 ++ Event.unlink_sync :: (List.range n).map Event.unlink_data)
      | TriggerCmd.pause_push => (0, { st with running := false }, ev0)
      | TriggerCmd.pause_release => (0, { st with running := true }, ev0)
      | TriggerCmd.other => (-22, st, ev0)

/-- The start-trigger contract asserted by claim C6 about a trigger outcome
r = (result, state, events): the sync URB submission precedes every data
submission; every data slot's buffer is cleared to silence before that
slot's submission; on failure the flags are back to the cleared pre-start
values, the sync slot is unlinked whenever its submission had succeeded,
every successfully submitted data slot is unlinked, and the returned error
is the failing submission's error; on success the result is 0 with both
flags set. -/
def startTriggerContract (syncErr : Int) (dataErr : Nat → Int)
    (r : Int × TrigState × List Event) : Prop :=
  (∀ i, Event.submit_data i ∈ r.2.2 →
    beforeB Event.submit_sync (Event.submit_data i) r.2.2 = true) ∧
  (∀ i, Event.submit_data i ∈ r.2.2 →
    beforeB (Event.memset_silence i) (Event.submit_data i) r.2.2 = true) ∧
  (r.1 < 0 →
    r.2.1.running = false ∧ r.2.1.stream_started = false ∧
    (0 ≤ syncErr → Event.unlink_sync ∈ r.2.2) ∧
    (∀ j, Event.submit_data j ∈ r.2.2 → 0 ≤ dataErr j →
      Event.unlink_data j ∈ r.2.2)) ∧
  (r.1 < 0 →
    r.1 = syncErr ∨ ∃ i, Event.submit_data i ∈ r.2.2 ∧ r.1 = dataErr i) ∧
  (0 ≤ r.1 → r.1 = 0 ∧ r.2.1.running = true ∧ r.2.1.stream_started = true)

/-! ### Hardware pointer and period accounting (katana_urb_complete
lines 919-957, katana_pcm_pointer lines 870-895) -/

structure PtrState where
  hw_ptr : Nat
  last_period_hw_ptr : Nat
  deriving DecidableEq, Repr

/-- The successful-completion pointer update of katana_urb_complete: add the
transferred frames, renormalise with a single conditional subtraction of
buffer_size, and signal period-elapsed exactly when the period index of the
new hw_ptr differs from the period index of the hw_ptr recorded at the last
notification (which is then refreshed). -/
def stepHwPtr (buffer_size period_size : Nat) (st : PtrState) (frames : Nat) :
    PtrState × Bool :=
  let hw0 := st.hw_ptr + frames
  let hw := if buffer_size ≤ hw0 then hw0 - buffer_size else hw0
  if hw / period_size ≠ st.last_period_hw_ptr / period_size then
    (⟨hw, hw⟩, true)
  else (⟨hw, st.last_period_hw_ptr⟩, false)

/-- Period-elapsed signals produced by a sequence of successful data URB
completions transferring the given frame counts. -/
def runSignals (b P : Nat) (st : PtrState) : List Nat → List Bool
  | [] => []
  | f :: fs => (stepHwPtr b P st f).2 :: runSignals b P (stepHwPtr b P st f).1 fs

/-- Pointer state after a sequence of successful data URB completions. -/
def runPtr (b P : Nat) (st : PtrState) : List Nat → PtrState
  | [] => st
  | f :: fs => runPtr b P (stepHwPtr b P st f).1 fs

/-- Model of katana_pcm_pointer: 0 when the private data is gone or the USB
device is invalid, otherwise the tracked hw_ptr. -/
def katana_pcm_pointer (dataPresent usb_dev_valid : Bool) (hw_ptr : Nat) : Nat :=
  if dataPresent = false then 0
  else if usb_dev_valid = false then 0
  else hw_ptr

/-- Cumulative-position ghost state for the spec-side reading of period
notifications: total frames consumed since start and the total recorded at
the last notification. -/
structure SpecPtr where
  total : Nat
  last_notify : Nat
  deriving DecidableEq, Repr

/-- Modelled from the spec: a period boundary is crossed when the cumulative
consumed-frame count passes a multiple of period_size; a notification is due
exactly when at least one boundary was crossed since the last notification. -/
def specStep (P : Nat) (s : SpecPtr) (frames : Nat) : SpecPtr × Bool :=
  let t := s.total + frames
  if s.last_notify / P < t / P then (⟨t, t⟩, true) else (⟨t, s.last_notify⟩, false)

/-- Spec-side notification sequence for a list of completions. -/
def specSignals (P : Nat) (s : SpecPtr) : List Nat → List Bool
  | [] => []
  | f :: fs => (specStep P s f).2 :: specSignals P (specStep P s f).1 fs

/-! ### Isochronous refill of a completed data URB (katana_urb_complete,
pcm.c lines 976-1117)

Byte buffers are modelled as functions from byte index to byte value;
urb_buffers is a function from slot index to such a buffer.  The static
counter urb_count is incremented once at the top of every completion (line
917), before the refill reads it at lines 1043 and 1068 to pick the buffer
it writes into. -/

structure IsoDesc where
  offset : Nat
  length : Nat
  deriving DecidableEq, Repr

/-- Configuration fields of katana_pcm_data (and of the substream runtime)
that the refill reads but never writes within one completion. -/
structure RefillCtx where
  num_urbs : Nat
  urb_buffer_size : Nat
  buffer_size : Nat
  dma_bytes : Nat
  frame_size : Nat
  samples_per_packet : Nat
  number_of_packets : Nat
  appl_ptr : Nat
  pcm : Nat → Nat

/-- Mutable state the refill touches: the slot buffers, the PCM read
pointer, the identity of the completing URB (urb_index, whose
transfer_buffer is bufs urb_index), the static completion counter after its
increment, and the completing URB's packet descriptors. -/
structure RefillInput where
  bufs : Nat → Nat → Nat
  read_ptr : Nat
  urb_index : Nat
  urb_count : Nat
  descs : List IsoDesc

/-- Byte-wise image of memcpy(dst+off, src, len). -/
def memcpyRange (dst : Nat → Nat) (off len : Nat) (src : Nat → Nat) :
    Nat → Nat :=
  fun a => if off ≤ a ∧ a < off + len then src (a - off) else dst a

/-- Byte-wise image of memset(dst+off, 0, len). -/
def memsetRange (dst : Nat → Nat) (off len : Nat) : Nat → Nat :=
  fun a => if off ≤ a ∧ a < off + len then 0 else dst a

/-- Frames available between the read pointer and the application pointer
(pcm.c lines 1016-1023). -/
def availableFrames (buffer_size read_ptr appl_ptr : Nat) : Nat :=
  let appl_pos := appl_ptr % buffer_size
  if read_ptr ≤ appl_pos then appl_pos - read_ptr
  else buffer_size - read_ptr + appl_pos

/-- Descriptor recomputation of pcm.c lines 994-1013: every packet is sized
to samples_per_packet frames, clipped so it never runs past the URB buffer,
and the requested total is accumulated. -/
def recomputeDescs (c : RefillCtx) : List IsoDesc × Nat :=
  let ps := c.samples_per_packet * c.frame_size
  (List.range c.number_of_packets).foldl
    (fun acc k =>
      let clipped := (k + 1) * ps > c.urb_buffer_size
      let tsz := if clipped then c.urb_buffer_size - k * ps
                 else c.samples_per_packet * c.frame_size
      let tps := if clipped then (c.urb_buffer_size - k * ps) / c.frame_size
                 else c.samples_per_packet
      (acc.1 ++ [⟨k * ps, tsz⟩], acc.2 + tps))
    ([], 0)

/-- One packet copy from the PCM ring into the destination buffer
(pcm.c lines 1043-1053), splitting in two when the source region wraps past
dma_bytes. -/
def copyPacket (c : RefillCtx) (dbuf : Nat → Nat)
    (off copy_offset copy_size : Nat) : Nat → Nat :=
  if copy_offset + copy_size ≤ c.dma_bytes then
    memcpyRange dbuf off copy_size (fun b => c.pcm (copy_offset + b))
  else
    let fp := c.dma_bytes - copy_offset
    let sp := copy_size - fp
    memcpyRange
      (memcpyRange dbuf off fp (fun b => c.pcm (copy_offset + b)))
      (off + fp) sp c.pcm

/-- The packet copy loop of pcm.c lines 1034-1059: walk the descriptors
while fewer than total frames have been copied, copy min(packet capacity,
remaining) frames into the destination buffer at each packet's offset,
shrink that packet's length to the bytes actually written, and leave any
remaining descriptors untouched.  Returns the destination buffer, the
frames copied, and the updated descriptor list. -/
def copyLoop (c : RefillCtx) (read_ptr total : Nat) :
    List IsoDesc → (Nat → Nat) → Nat → (Nat → Nat) × Nat × List IsoDesc
  | [], dbuf, copied => (dbuf, copied, [])
  | d :: rest, dbuf, copied =>
    if copied < total then
      let packet_samples := d.length / c.frame_size
      let samples_to_copy := min packet_samples (total - copied)
      let copy_size := samples_to_copy * c.frame_size
      let copy_offset := (read_ptr + copied) % c.buffer_size * c.frame_size
      let dbuf1 := copyPacket c dbuf d.offset copy_offset copy_size
      let r := copyLoop c read_ptr total rest dbuf1 (copied + samples_to_copy)
      (r.1, r.2.1, ⟨d.offset, copy_size⟩ :: r.2.2)
    else (dbuf, copied, d :: rest)

/-- The refill of pcm.c lines 976-1111 for an isochronous completing URB,
assuming the stream is started and running and the PCM buffer is allocated.
The descriptors are recomputed, the frames requested are limited to what is
available between read_ptr and appl_ptr, and then either audio is copied or
silence is written - in both cases into the buffer indexed by
urb_count % num_urbs, exactly as lines 1043 and 1068 do. -/
def katana_urb_refill (c : RefillCtx) (inp : RefillInput) : RefillInput :=
  let rd := recomputeDescs c
  let avail := availableFrames c.buffer_size inp.read_ptr c.appl_ptr
  let total := min rd.2 avail
  let dstIdx := inp.urb_count % c.num_urbs
  if 0 < total then
    let r := copyLoop c inp.read_ptr total rd.1 (inp.bufs dstIdx) 0
    { inp with
      bufs := fun j => if j = dstIdx then r.1 else inp.bufs j,
      read_ptr := (inp.read_ptr + r.2.1) % c.buffer_size,
      descs := r.2.2 }
  else
    let dbuf := rd.1.foldl (fun b d => memsetRange b d.offset d.length)
      (inp.bufs dstIdx)
    { inp with
      bufs := fun j => if j = dstIdx then dbuf else inp.bufs j,
      descs := rd.1 }

/-- A successful data completion of the URB with the given slot index while
started and running: urb_count is incremented (pcm.c line 917) and the URB
is refilled and resubmitted; the resubmitted slot is idx itself, whose
transfer buffer is bufs idx. -/
def completionStep (c : RefillCtx) (inp : RefillInput) (idx : Nat) : RefillInput :=
  katana_urb_refill c { inp with urb_index := idx, urb_count := inp.urb_count + 1 }

/-- Concrete 48 kHz S24_3LE stereo streaming context: 6 URBs of 8 packets
of nominally 48 frames (288 bytes), a 512-frame PCM ring (dma_bytes 3072),
the application pointer at frame 384, and a PCM buffer whose every byte is
the nonzero sample byte 7. -/
def ctx48 : RefillCtx :=
  { num_urbs := 6, urb_buffer_size := 2304, buffer_size := 512,
    dma_bytes := 3072, frame_size := 6, samples_per_packet := 48,
    number_of_packets := 8, appl_ptr := 384, pcm := fun _ => 7 }

/-- Slot state right after the start trigger: every URB buffer holds
silence, the read pointer and the static completion counter are zero. -/
def slotsAtStart : RefillInput :=
  { bufs := fun _ _ => 0, read_ptr := 0, urb_index := 0, urb_count := 0,
    descs := [] }

/-! ## Theorems -/

/-- Claim C1 (code_bug evidence): with the ring empty (available frames =
0), the refill of the completing transfer slot does NOT leave that slot's
buffer zero-filled.  Trace: the first completion (URB 0, urb_count becomes
1) finds 384 frames of audio and copies them into urb_buffers[1 % 6] -
slot 1's buffer, not slot 0's; the second completion (URB 1, urb_count
becomes 2) finds 0 available frames and writes its silence into
urb_buffers[2 % 6], so slot 1 is resubmitted while byte 0 of its buffer -
inside the first resubmitted packet region, offset 0, length 288 - still
holds the stale audio byte 7. -/
theorem underrun_refill_keeps_stale_bytes :
    availableFrames ctx48.buffer_size
      (completionStep ctx48 slotsAtStart 0).read_ptr ctx48.appl_ptr = 0 ∧
    ((completionStep ctx48 (completionStep ctx48 slotsAtStart 0) 1).descs.getD 0
      ⟨99, 99⟩) = ⟨0, 288⟩ ∧
    (completionStep ctx48 (completionStep ctx48 slotsAtStart 0) 1).urb_index = 1 ∧
    (completionStep ctx48 (completionStep ctx48 slotsAtStart 0) 1).bufs 1 0 = 7 := by
  refine ⟨by decide, by decide, by decide, by decide⟩

/-- Claim C2 (counterexample): after the tracker accepts the in-range
samples 48 then 52 at 48 kHz (3-byte feedback payloads 48*2^14 and
52*2^14), the refill sizes packets from feedback_samples = 52, the most
recent accepted sample, while the smoothed average is (7*48 + 52)/8 = 48 -
so the per-packet count does not equal the smoothed average. -/
theorem refill_uses_latest_not_average :
    (katana_sync_urb_complete
        (katana_sync_urb_complete initFeedback 48000 [0, 0, 12])
        48000 [0, 0, 13]).feedback_valid = true ∧
    samplesPerPacket
      (katana_sync_urb_complete
        (katana_sync_urb_complete initFeedback 48000 [0, 0, 12])
        48000 [0, 0, 13]) 48000 = 52 ∧
    (katana_sync_urb_complete
        (katana_sync_urb_complete initFeedback 48000 [0, 0, 12])
        48000 [0, 0, 13]).feedback_average = 48 ∧
    (52 : Nat) ≠ 48 := by
  decide

/-- Claim C3 (counterexample): at 48 kHz the payload [0, 192, 10] parses to
704512 = 43 * 2^14, i.e. 43 samples per frame; 43 lies strictly below
0.9 * nominal = 0.9 * 48 = 43.2 (43 * 10 < 48 * 9), yet the handler accepts
it, setting the valid flag, the average and the count - the strictly
out-of-interval value is not dropped. -/
theorem feedback_boundary_accepts_outside_interval :
    (parseFeedback [0, 192, 10] + 8192) / 16384 = 43 ∧
    43 * 10 < 48000 / 1000 * 9 ∧
    (katana_sync_urb_complete initFeedback 48000 [0, 192, 10]).feedback_valid
      = true ∧
    (katana_sync_urb_complete initFeedback 48000 [0, 192, 10]).feedback_average
      = 43 ∧
    (katana_sync_urb_complete initFeedback 48000 [0, 192, 10]).feedback_count
      = initFeedback.feedback_count + 1 := by
  decide

/-- Claim C5 (counterexample): the request (period_bytes 6, periods 2,
buffer_bytes 12, S24_3LE stereo) satisfies buffer_bytes = period_bytes *
periods and frame alignment (6 % 6 = 0), yet hw_params rejects it with
-EINVAL because 12 lies below the 3072-byte hardware minimum - and the
rejected call has already overwritten the stored period_bytes (999 before,
6 after), so the session does not stay in its prior state. -/
theorem hw_params_rejects_small_valid_product :
    (katana_pcm_hw_params false true true
      ⟨0, 0, 999, 0, 0, PcmFormat.s16le⟩
      ⟨2, 1, 6, 2, 48000, PcmFormat.s24_3le, 12, 2⟩).1 = -22 ∧
    (12 : Nat) = 6 * 2 ∧ (6 : Nat) % frameSizeOf 2 PcmFormat.s24_3le = 0 ∧
    (katana_pcm_hw_params false true true
      ⟨0, 0, 999, 0, 0, PcmFormat.s16le⟩
      ⟨2, 1, 6, 2, 48000, PcmFormat.s24_3le, 12, 2⟩).2.period_bytes ≠ 999 := by
  decide

/-- Claim C9 (counterexample): with a 512-frame ring of 256-frame periods,
a completion of 100 frames followed by one of 512 frames leaves the
hardware pointer back at 100 in period cell 0: the code signals nothing at
the second completion, although the cumulative position moved from 100 to
612 and crossed the period boundaries at 256 and 512 - a crossing with no
notification. -/
theorem period_signal_missed_on_wrap :
    runSignals 512 256 ⟨0, 0⟩ [100, 512] = [false, false] ∧
    specSignals 256 ⟨0, 0⟩ [100, 512] = [false, true] := by
  decide

/-- Claim C7: once the disconnecting flag is observed (at either read), the
entry attempt returns -ENODEV and its updates to active_operations cancel
out (an increment performed after the flag was set is decremented back);
entry succeeds exactly when the flag is observed unset both before and
after the increment, and then the count rises by one. -/
theorem enter_operation_gate (d1 d2 : Bool) :
    ((katana_enter_operation d1 d2).1 = if d1 || d2 then -19 else 0) ∧
    (gateDelta (katana_enter_operation d1 d2).2 = if d1 || d2 then 0 else 1) ∧
    ((katana_enter_operation d1 d2).1 = 0 ↔ d1 = false ∧ d2 = false) := by
  cases d1 <;> cases d2 <;> decide

/-- Claim C3 (amended): for a 3- or 4-byte payload, a parsed
samples-per-frame value outside the code's integer bounds
[rate*9/10000, rate*11/10000] leaves the whole tracker state unchanged
(and the handler, being void, surfaces nothing), while a value within
those bounds is accepted, setting the valid flag, the sample value and
bumping the count. -/
theorem feedback_range_gate (st : FeedbackState) (rate : Nat)
    (payload : List Nat) (hlen : payload.length = 3 ∨ payload.length = 4) :
    (((parseFeedback payload + 8192) / 16384 < rate * 9 / 10000 ∨
      rate * 11 / 10000 < (parseFeedback payload + 8192) / 16384) →
      katana_sync_urb_complete st rate payload = st) ∧
    ((rate * 9 / 10000 ≤ (parseFeedback payload + 8192) / 16384 ∧
      (parseFeedback payload + 8192) / 16384 ≤ rate * 11 / 10000) →
      (katana_sync_urb_complete st rate payload).feedback_valid = true ∧
      (katana_sync_urb_complete st rate payload).feedback_samples =
        (parseFeedback payload + 8192) / 16384 ∧
      (katana_sync_urb_complete st rate payload).feedback_count =
        st.feedback_count + 1) := by
  have hml : ¬ payload.length < 3 := by rcases hlen with h | h <;> omega
  have hunf : katana_sync_urb_complete st rate payload
      = feedbackUpdate st rate (parseFeedback payload) := by
    simp [katana_sync_urb_complete, hml]
  constructor
  · intro hout
    rw [hunf]
    simp only [feedbackUpdate]
    rw [if_neg (by omega)]
  · intro hin
    rw [hunf]
    simp only [feedbackUpdate]
    rw [if_pos hin]
    exact ⟨rfl, rfl, rfl⟩

/-- Witness for feedback_range_gate at rate 48000 with the in-range 3-byte
payload [0, 0, 13] (52 samples per frame). -/
theorem feedback_range_gate_witness :
    ((katana_sync_urb_complete initFeedback 48000 [0, 0, 13]).feedback_valid
      = true ∧
    (katana_sync_urb_complete initFeedback 48000 [0, 0, 13]).feedback_samples =
      (parseFeedback [0, 0, 13] + 8192) / 16384 ∧
    (katana_sync_urb_complete initFeedback 48000 [0, 0, 13]).feedback_count =
      initFeedback.feedback_count + 1) := by
  exact (feedback_range_gate initFeedback 48000 [0, 0, 13]
    (Or.inl (by decide))).2 (by decide)

/-- An accepted (in-range) raw feedback value rewrites the tracker to the
record the source builds at pcm.c lines 1171-1183. -/
theorem feedbackUpdate_accepted (st : FeedbackState) (rate fv : Nat)
    (h1 : rate * 9 / 10000 ≤ (fv + 8192) / 16384)
    (h2 : (fv + 8192) / 16384 ≤ rate * 11 / 10000) :
    feedbackUpdate st rate fv =
      { feedback_value := fv, feedback_samples := (fv + 8192) / 16384,
        feedback_count := st.feedback_count + 1,
        feedback_average :=
          if st.feedback_count = 0 then (fv + 8192) / 16384
          else smoothStep st.feedback_average ((fv + 8192) / 16384),
        feedback_valid := true } := by
  simp only [feedbackUpdate, smoothStep]
  rw [if_pos ⟨h1, h2⟩]
  by_cases hc : st.feedback_count = 0 <;> simp [hc]

/-- A rejected (out-of-range) raw feedback value leaves the tracker
unchanged. -/
theorem feedbackUpdate_rejected (st : FeedbackState) (rate fv : Nat)
    (h : ¬ (rate * 9 / 10000 ≤ (fv + 8192) / 16384 ∧
      (fv + 8192) / 16384 ≤ rate * 11 / 10000)) :
    feedbackUpdate st rate fv = st := by
  simp only [feedbackUpdate]
  rw [if_neg h]

/-- Folding accepted values from a tracker that has already accepted at
least one sample applies the weight-1/8 smoothing step for every value, and
adds the list length to the count. -/
theorem feedbackUpdate_foldl_accepted (rate : Nat) :
    ∀ (fvs : List Nat) (st : FeedbackState), st.feedback_count ≠ 0 →
    (∀ fv ∈ fvs, rate * 9 / 10000 ≤ (fv + 8192) / 16384 ∧
      (fv + 8192) / 16384 ≤ rate * 11 / 10000) →
    (fvs.foldl (fun t fv => feedbackUpdate t rate fv) st).feedback_average
      = (fvs.map (fun fv => (fv + 8192) / 16384)).foldl smoothStep
          st.feedback_average ∧
    (fvs.foldl (fun t fv => feedbackUpdate t rate fv) st).feedback_count
      = st.feedback_count + fvs.length := by
  intro fvs
  induction fvs with
  | nil => intro st hc h; exact ⟨rfl, rfl⟩
  | cons fv rest ih =>
    intro st hc h
    have hfv := h fv (List.mem_cons_self _ _)
    have hstep := feedbackUpdate_accepted st rate fv hfv.1 hfv.2
    have hrest : ∀ x ∈ rest, rate * 9 / 10000 ≤ (x + 8192) / 16384 ∧
        (x + 8192) / 16384 ≤ rate * 11 / 10000 :=
      fun x hx => h x (List.mem_cons_of_mem _ hx)
    rw [List.foldl_cons, hstep, List.map_cons, List.foldl_cons, if_neg hc]
    have hi := ih
      { feedback_value := fv,
        feedback_samples := (fv + 8192) / 16384,
        feedback_count := st.feedback_count + 1,
        feedback_average := smoothStep st.feedback_average ((fv + 8192) / 16384),
        feedback_valid := true }
      (by simp) hrest
    refine ⟨hi.1, ?_⟩
    rw [hi.2, List.length_cons]
    simp
    omega

/-- Claim C4: over any sequence of raw feedback values all of which pass
the range check, starting from the freshly opened tracker, the resulting
smoothed average equals the spec recurrence - the first accepted sample
initialises the average, each later sample s maps a to (7*a + s)/8 in
integer arithmetic - and every sample was counted. -/
theorem feedback_smoothing_recurrence (rate : Nat) (fvs : List Nat)
    (h : ∀ fv ∈ fvs, rate * 9 / 10000 ≤ (fv + 8192) / 16384 ∧
      (fv + 8192) / 16384 ≤ rate * 11 / 10000) :
    (fvs.foldl (fun t fv => feedbackUpdate t rate fv) initFeedback).feedback_average
      = specSmoothedAvg (fvs.map (fun fv => (fv + 8192) / 16384)) ∧
    (fvs.foldl (fun t fv => feedbackUpdate t rate fv) initFeedback).feedback_count
      = fvs.length := by
  cases fvs with
  | nil => exact ⟨rfl, rfl⟩
  | cons fv rest =>
    have hfv := h fv (List.mem_cons_self _ _)
    have hrest : ∀ x ∈ rest, rate * 9 / 10000 ≤ (x + 8192) / 16384 ∧
        (x + 8192) / 16384 ≤ rate * 11 / 10000 :=
      fun x hx => h x (List.mem_cons_of_mem _ hx)
    have hstep : feedbackUpdate initFeedback rate fv =
        { feedback_value := fv, feedback_samples := (fv + 8192) / 16384,
          feedback_count := 1, feedback_average := (fv + 8192) / 16384,
          feedback_valid := true } := by
      rw [feedbackUpdate_accepted initFeedback rate fv hfv.1 hfv.2]
      simp [initFeedback]
    rw [List.foldl_cons, hstep]
    have hi := feedbackUpdate_foldl_accepted rate rest
      { feedback_value := fv,
        feedback_samples := (fv + 8192) / 16384,
        feedback_count := 1,
        feedback_average := (fv + 8192) / 16384,
        feedback_valid := true }
      (by simp) hrest
    refine ⟨?_, ?_⟩
    · rw [hi.1]
      simp [specSmoothedAvg]
    · rw [hi.2, List.length_cons]
      simp
      omega

/-- Witness for feedback_smoothing_recurrence: accepting 48 then 52 at
48 kHz gives average (7*48 + 52)/8 = 48 and count 2. -/
theorem feedback_smoothing_recurrence_witness :
    ([(786432 : Nat), 851968].foldl
        (fun t fv => feedbackUpdate t 48000 fv) initFeedback).feedback_average
      = specSmoothedAvg ([(786432 : Nat), 851968].map (fun fv => (fv + 8192) / 16384)) ∧
    ([(786432 : Nat), 851968].foldl
        (fun t fv => feedbackUpdate t 48000 fv) initFeedback).feedback_count
      = [(786432 : Nat), 851968].length := by
  exact feedback_smoothing_recurrence 48000 [786432, 851968] (by decide)

/-- Folding any mix of accepted and rejected raw feedback values: the
per-packet target the refill will use afterwards is the last accepted
sample, falling back to the target the starting state already had. -/
theorem samplesPerPacket_foldl (rate : Nat) (hmin : 0 < rate * 9 / 10000) :
    ∀ (fvs : List Nat) (st : FeedbackState),
    samplesPerPacket (fvs.foldl (fun t fv => feedbackUpdate t rate fv) st) rate
      = lastD (acceptedSamples rate fvs) (samplesPerPacket st rate) := by
  intro fvs
  induction fvs with
  | nil => intro st; rfl
  | cons fv rest ih =>
    intro st
    by_cases hacc : rate * 9 / 10000 ≤ (fv + 8192) / 16384 ∧
        (fv + 8192) / 16384 ≤ rate * 11 / 10000
    · have hstep := feedbackUpdate_accepted st rate fv hacc.1 hacc.2
      have hca : acceptedSamples rate (fv :: rest)
          = (fv + 8192) / 16384 :: acceptedSamples rate rest := by
        simp [acceptedSamples, hacc.1, hacc.2]
      rw [List.foldl_cons, hstep, hca]
      show samplesPerPacket _ rate
        = lastD (acceptedSamples rate rest) ((fv + 8192) / 16384)
      rw [ih]
      congr 1
      have hpos : 0 < (fv + 8192) / 16384 := by omega
      simp [samplesPerPacket, hpos]
    · have hstep := feedbackUpdate_rejected st rate fv hacc
      have hca : acceptedSamples rate (fv :: rest)
          = acceptedSamples rate rest := by
        simp only [acceptedSamples, List.map_cons, List.filter_cons]
        rw [if_neg (by simpa using hacc)]
      rw [List.foldl_cons, hstep, hca, ih]

/-- Claim C2 (amended): starting from the freshly opened tracker, after any
sequence of raw feedback values the per-packet sample count the refill uses
equals the most recently accepted in-range sample (feedback_samples), and
until a first sample is accepted it equals the nominal rate / 1000.  The
smoothed average is maintained but is not what sizes the packets. -/
theorem refill_target_is_last_accepted (rate : Nat) (fvs : List Nat)
    (hmin : 0 < rate * 9 / 10000) :
    samplesPerPacket
        (fvs.foldl (fun t fv => feedbackUpdate t rate fv) initFeedback) rate
      = lastD (acceptedSamples rate fvs) (rate / 1000) := by
  rw [samplesPerPacket_foldl rate hmin fvs initFeedback]
  rfl

/-- Witness for refill_target_is_last_accepted: at 48 kHz, after raw values
parsing to 48, then 10000 (rejected as out of range), then 52, the refill
target is 52. -/
theorem refill_target_is_last_accepted_witness :
    samplesPerPacket
        ([(786432 : Nat), 163840000, 851968].foldl
          (fun t fv => feedbackUpdate t 48000 fv) initFeedback) 48000
      = lastD (acceptedSamples 48000 [786432, 163840000, 851968]) (48000 / 1000) := by
  exact refill_target_is_last_accepted 48000 [786432, 163840000, 851968] (by decide)

/-- Claim C5 (amended): with the gate open and the device valid, hw_params
accepts exactly when buffer_bytes equals the unsigned 32-bit product
period_bytes * periods, period_bytes is a multiple of the frame size
derived from channels and format, and buffer_bytes lies within the
advertised hardware range [3072, 49152]; every rejection is the synchronous
-EINVAL, and in all cases the negotiated parameters have already been
stored into the session (so a rejected call still overwrites the
configuration fields). -/
theorem hw_params_accept_iff (cfg : SessionCfg) (p : HwParams) :
    ((katana_pcm_hw_params false true true cfg p).1 = 0 ↔
      (p.buffer_bytes = p.period_bytes * p.periods % 4294967296 ∧
       p.period_bytes % frameSizeOf p.channels p.format = 0 ∧
       3072 ≤ p.buffer_bytes ∧ p.buffer_bytes ≤ 49152)) ∧
    (katana_pcm_hw_params false true true cfg p).2 = storeParams cfg p ∧
    ((katana_pcm_hw_params false true true cfg p).1 = 0 ∨
     (katana_pcm_hw_params false true true cfg p).1 = -22) := by
  have hch : (storeParams cfg p).channels = p.channels := rfl
  have hfmt : (storeParams cfg p).format = p.format := rfl
  have hpb : (storeParams cfg p).period_bytes = p.period_bytes := rfl
  have hframe : ¬ ((storeParams cfg p).format = PcmFormat.s24_3le ∧
      (storeParams cfg p).channels = 2 ∧
      frameSizeOf (storeParams cfg p).channels (storeParams cfg p).format ≠ 6) := by
    rintro ⟨hf, hc, hne⟩
    apply hne
    rw [hc, hf]
    decide
  have hred : katana_pcm_hw_params false true true cfg p
      = (if (storeParams cfg p).format = PcmFormat.s24_3le ∧
            (storeParams cfg p).channels = 2 ∧
            frameSizeOf (storeParams cfg p).channels (storeParams cfg p).format ≠ 6
         then ((-22 : Int), storeParams cfg p)
         else if (storeParams cfg p).period_bytes %
            frameSizeOf (storeParams cfg p).channels (storeParams cfg p).format ≠ 0
         then (-22, storeParams cfg p)
         else if p.buffer_bytes ≠
            (storeParams cfg p).period_bytes * p.periods % 4294967296
         then (-22, storeParams cfg p)
         else if p.buffer_bytes < 3072 ∨ 49152 < p.buffer_bytes
         then (-22, storeParams cfg p)
         else (0, storeParams cfg p)) := rfl
  rw [hred, if_neg hframe, hch, hfmt, hpb]
  split_ifs with h2 h3 h4
  · refine ⟨?_, rfl, Or.inr rfl⟩
    constructor
    · intro hz
      have hz2 : (-22 : Int) = 0 := hz
      exact absurd hz2 (by decide)
    · rintro ⟨_, hal, _⟩; exact absurd hal h2
  · refine ⟨?_, rfl, Or.inr rfl⟩
    constructor
    · intro hz
      have hz2 : (-22 : Int) = 0 := hz
      exact absurd hz2 (by decide)
    · rintro ⟨hbe, _, _⟩; exact absurd hbe h3
  · refine ⟨?_, rfl, Or.inr rfl⟩
    constructor
    · intro hz
      have hz2 : (-22 : Int) = 0 := hz
      exact absurd hz2 (by decide)
    · rintro ⟨_, _, hlo, hhi⟩; exfalso; omega
  · refine ⟨?_, rfl, Or.inl rfl⟩
    constructor
    · intro _
      refine ⟨not_not.mp h3, not_not.mp h2, ?_, ?_⟩ <;> omega
    · intro _; rfl

/-- One completion keeps the hardware pointer inside the ring: if the
incoming pointer is below buffer_size and at most buffer_size frames are
reported, the single conditional subtraction renormalises it below
buffer_size again. -/
theorem stepHwPtr_lt (b P : Nat) (st : PtrState) (f : Nat)
    (hst : st.hw_ptr < b) (hf : f ≤ b) :
    (stepHwPtr b P st f).1.hw_ptr < b := by
  simp only [stepHwPtr]
  split_ifs with h1 h2 <;> simp only [] <;> omega

/-- The in-range invariant holds along any sequence of completions each
reporting at most buffer_size frames. -/
theorem runPtr_lt (b P : Nat) :
    ∀ (fs : List Nat) (st : PtrState), st.hw_ptr < b →
    (∀ f ∈ fs, f ≤ b) → (runPtr b P st fs).hw_ptr < b := by
  intro fs
  induction fs with
  | nil => intro st hst _; exact hst
  | cons f rest ih =>
    intro st hst hf
    have h1 := stepHwPtr_lt b P st f hst (hf f (List.mem_cons_self _ _))
    exact ih _ h1 (fun x hx => hf x (List.mem_cons_of_mem _ hx))

/-- Claim C10: assuming each successful completion reports at most
buffer_size frames, hw_ptr stays strictly below buffer_size after every
completion-path update, so katana_pcm_pointer returns a frame offset
strictly below the configured buffer size whenever the session data is
present and the device valid - and it returns 0 when the private data is
absent or the USB device has been invalidated. -/
theorem hw_ptr_invariant_and_pointer (b P : Nat) (st : PtrState)
    (fs : List Nat) (hb : 0 < b) (hst : st.hw_ptr < b)
    (hf : ∀ f ∈ fs, f ≤ b) :
    (runPtr b P st fs).hw_ptr < b ∧
    katana_pcm_pointer true true (runPtr b P st fs).hw_ptr < b ∧
    (∀ hp v, katana_pcm_pointer false v hp = 0) ∧
    (∀ hp, katana_pcm_pointer true false hp = 0) := by
  have hlt := runPtr_lt b P fs st hst hf
  exact ⟨hlt, hlt, fun hp v => rfl, fun hp => rfl⟩

/-- Witness for hw_ptr_invariant_and_pointer on a 512-frame ring with a
full-buffer completion followed by a short one. -/
theorem hw_ptr_invariant_and_pointer_witness :
    (runPtr 512 256 ⟨0, 0⟩ [512, 100]).hw_ptr < 512 ∧
    katana_pcm_pointer true true (runPtr 512 256 ⟨0, 0⟩ [512, 100]).hw_ptr < 512 ∧
    (∀ hp v, katana_pcm_pointer false v hp = 0) ∧
    (∀ hp, katana_pcm_pointer true false hp = 0) := by
  exact hw_ptr_invariant_and_pointer 512 256 ⟨0, 0⟩ [512, 100] (by decide)
    (by decide) (by decide)

/-- Simulation invariant between the code's wrapped pointer comparison and
the spec's cumulative boundary-crossing account: when the ring holds m
periods of P frames, the two states track each other provided the recorded
cumulative totals Tn ≤ T lie in the same period and every completion
transfers at most buffer_size - period_size = P * (m - 1) frames. -/
theorem runSignals_eq_specSignals_aux (P m : Nat) (hP : 0 < P) (hm : 0 < m) :
    ∀ (fs : List Nat) (T Tn : Nat), Tn ≤ T → T / P = Tn / P →
    (∀ f ∈ fs, f ≤ P * (m - 1)) →
    runSignals (P * m) P ⟨T % (P * m), Tn % (P * m)⟩ fs
      = specSignals P ⟨T, Tn⟩ fs := by
  intro fs
  induction fs with
  | nil => intro T Tn _ _ _; rfl
  | cons f rest ih =>
    intro T Tn hTn hdiv hf
    have hb : 0 < P * m := Nat.mul_pos hP hm
    have hfm := hf f (List.mem_cons_self _ _)
    have hrest : ∀ x ∈ rest, x ≤ P * (m - 1) :=
      fun x hx => hf x (List.mem_cons_of_mem _ hx)
    have hPm : P * (m - 1) + P = P * m := by
      cases m with
      | zero => omega
      | succ k => simp [Nat.mul_succ]
    have hfb : f < P * m := by omega
    have hTb : T % (P * m) < P * m := Nat.mod_lt _ hb
    have hnorm : (if P * m ≤ T % (P * m) + f then T % (P * m) + f - (P * m)
        else T % (P * m) + f) = (T + f) % (P * m) := by
      have hx : (T + f) % (P * m) = (T % (P * m) + f) % (P * m) := by
        conv_lhs => rw [Nat.add_mod]
        rw [Nat.mod_eq_of_lt hfb]
      by_cases hge : P * m ≤ T % (P * m) + f
      · rw [if_pos hge, hx, Nat.mod_eq_sub_mod hge,
          Nat.mod_eq_of_lt (show T % (P * m) + f - P * m < P * m by omega)]
      · rw [if_neg hge, hx,
          Nat.mod_eq_of_lt (show T % (P * m) + f < P * m by omega)]
    have hqc : Tn / P ≤ (T + f) / P := by
      rw [← hdiv]
      exact Nat.div_le_div_right (Nat.le_add_right T f)
    have hqu : (T + f) / P ≤ Tn / P + (m - 1) := by
      calc (T + f) / P ≤ (T + P * (m - 1)) / P :=
            Nat.div_le_div_right (by omega)
        _ = T / P + (m - 1) := Nat.add_mul_div_left T (m - 1) hP
        _ = Tn / P + (m - 1) := by rw [hdiv]
    have hiff : ((T + f) % (P * m) / P ≠ Tn % (P * m) / P) ↔
        Tn / P < (T + f) / P := by
      rw [Nat.mod_mul_right_div_self, Nat.mod_mul_right_div_self]
      constructor
      · intro hne
        by_contra hnlt
        have heq : (T + f) / P = Tn / P := Nat.le_antisymm (by omega) hqc
        exact hne (by rw [heq])
      · intro hlt hmeq
        have hdvd : m ∣ (T + f) / P - Tn / P :=
          (Nat.modEq_iff_dvd' hqc).mp hmeq.symm
        have hle := Nat.le_of_dvd (by omega) hdvd
        omega
    simp only [runSignals, specSignals, stepHwPtr, specStep]
    rw [hnorm]
    by_cases hq : Tn / P < (T + f) / P
    · rw [if_pos (hiff.mpr hq), if_pos hq]
      exact congrArg (List.cons true) (ih (T + f) (T + f) le_rfl rfl hrest)
    · rw [if_neg (fun hcon => hq (hiff.mp hcon)), if_neg hq]
      have hq2 : (T + f) / P = Tn / P := Nat.le_antisymm (by omega) hqc
      exact congrArg (List.cons false) (ih (T + f) Tn (by omega) hq2 hrest)

/-- Claim C9 (amended): with period_size P dividing buffer_size = P * m,
and provided every successful completion transfers at most
buffer_size - period_size frames, the completion path signals
period-elapsed exactly when the cumulative consumed position crossed at
least one multiple of P since the last notification - so notifications
follow boundary crossings in order, coalescing only as "at least one
boundary crossed since the last notice", including across ring wraparound.
A completion exceeding that bound can wrap the pointer back into the same
period cell and cross boundaries without a notification. -/
theorem period_signal_iff_crossing (P m : Nat) (fs : List Nat)
    (hP : 0 < P) (hm : 0 < m) (hf : ∀ f ∈ fs, f ≤ P * (m - 1)) :
    runSignals (P * m) P ⟨0, 0⟩ fs = specSignals P ⟨0, 0⟩ fs := by
  have h := runSignals_eq_specSignals_aux P m hP hm fs 0 0 le_rfl rfl hf
  simpa using h

/-- Witness for period_signal_iff_crossing: 512-frame ring, 256-frame
periods, completions of 100, 200 and 256 frames. -/
theorem period_signal_iff_crossing_witness :
    runSignals (256 * 2) 256 ⟨0, 0⟩ [100, 200, 256]
      = specSignals 256 ⟨0, 0⟩ [100, 200, 256] := by
  exact period_signal_iff_crossing 256 2 [100, 200, 256] (by decide) (by decide)
    (by decide)

/-- A list element that is neither of the scanned events passes through the
beforeB scan. -/
theorem beforeB_cons_ne (a b x : Event) (l : List Event) (hxa : x ≠ a)
    (hxb : x ≠ b) : beforeB a b (x :: l) = beforeB a b l := by
  simp [beforeB, hxa, hxb]

/-- An ordering established within a prefix survives appending a suffix. -/
theorem beforeB_append_left (a b : Event) (l2 : List Event) :
    ∀ l : List Event, beforeB a b l = true → beforeB a b (l ++ l2) = true := by
  intro l
  induction l with
  | nil => intro h; exact absurd h (by simp [beforeB])
  | cons x xs ih =>
    intro h
    by_cases hxa : x = a
    · simp [beforeB, hxa]
    · by_cases hxb : x = b
      · rw [hxb] at hxa
        simp [beforeB, hxb, hxa] at h
      · simp only [List.cons_append, beforeB, if_neg hxa, if_neg hxb] at h ⊢
        exact ih h

/-- Data slots submitted by the start loop carry indices in [i, i + fuel). -/
theorem startLoop_mem (dataErr : Nat → Int) :
    ∀ (f i j : Nat), Event.submit_data j ∈ (startLoop dataErr i f).2 →
      i ≤ j ∧ j < i + f := by
  intro f
  induction f with
  | zero => intro i j h; simp [startLoop] at h
  | succ rem ih =>
    intro i j h
    simp only [startLoop] at h
    by_cases hd : dataErr i < 0
    · rw [if_pos hd] at h
      simp at h
      omega
    · rw [if_neg hd] at h
      simp at h
      rcases h with h | h
      · omega
      · have := ih (i + 1) j h
        omega

/-- Every data slot the start loop submits had its buffer cleared to
silence earlier in the loop's own event stream. -/
theorem startLoop_before (dataErr : Nat → Int) :
    ∀ (f i j : Nat), Event.submit_data j ∈ (startLoop dataErr i f).2 →
      beforeB (Event.memset_silence j) (Event.submit_data j)
        (startLoop dataErr i f).2 = true := by
  intro f
  induction f with
  | zero => intro i j h; simp [startLoop] at h
  | succ rem ih =>
    intro i j h
    simp only [startLoop] at h ⊢
    by_cases hd : dataErr i < 0
    · rw [if_pos hd] at h ⊢
      simp at h
      subst h
      simp [beforeB]
    · rw [if_neg hd] at h ⊢
      by_cases hij : j = i
      · subst hij
        simp [beforeB]
      · have hj : Event.submit_data j ∈ (startLoop dataErr (i + 1) rem).2 := by
          simp at h
          rcases h with h | h
          · exact absurd h hij
          · exact h
        rw [beforeB_cons_ne _ _ _ _ (by simp; omega) (by simp),
          beforeB_cons_ne _ _ _ _ (by simp) (by simp; omega)]
        exact ih (i + 1) j hj

/-- When the start loop stops at a failed slot t, that submission failed,
slot t is among the attempted submissions, and no later slot was
attempted. -/
theorem startLoop_fail (dataErr : Nat → Int) :
    ∀ (f i t : Nat), (startLoop dataErr i f).1 = some t →
      dataErr t < 0 ∧ Event.submit_data t ∈ (startLoop dataErr i f).2 ∧
      ∀ j, Event.submit_data j ∈ (startLoop dataErr i f).2 → j ≤ t := by
  intro f
  induction f with
  | zero => intro i t h; simp [startLoop] at h
  | succ rem ih =>
    intro i t h
    simp only [startLoop] at h ⊢
    by_cases hd : dataErr i < 0
    · rw [if_pos hd] at h ⊢
      simp at h
      subst h
      refine ⟨hd, by simp, ?_⟩
      intro j hj
      simp at hj
      omega
    · rw [if_neg hd] at h ⊢
      have hi := ih (i + 1) t h
      refine ⟨hi.1, by simp [hi.2.1], ?_⟩
      intro j hj
      simp at hj
      rcases hj with hj | hj
      · have hm := startLoop_mem dataErr rem (i + 1) t hi.2.1
        omega
      · exact hi.2.2 j hj

/-- Claim C6: on the start trigger from a stopped state (running and
stream_started both clear, as they are whenever START is delivered), the
feedback (sync) URB is submitted before any data URB; every data URB's
buffer is cleared to silence before that URB is submitted; if the sync
submission or any data submission fails, every slot successfully submitted
for this activation (the sync slot included) is unlinked, both flags are
back to their pre-start cleared values, and the failing submission's error
is returned; on success the trigger returns 0 with both flags set. -/
theorem trigger_start_order_rollback (n hw lp rp : Nat) (syncErr : Int)
    (dataErr : Nat → Int) :
    startTriggerContract syncErr dataErr
      (katana_pcm_trigger TriggerCmd.start false true true n
        ⟨false, false, hw, lp, rp⟩ syncErr dataErr) := by
  show startTriggerContract syncErr dataErr
    ((triggerStart n ⟨false, false, hw, lp, rp⟩ syncErr dataErr).1,
     (triggerStart n ⟨false, false, hw, lp, rp⟩ syncErr dataErr).2.1,
     Event.gate_enter ::
       (triggerStart n ⟨false, false, hw, lp, rp⟩ syncErr dataErr).2.2)
  unfold startTriggerContract
  by_cases hsync : syncErr < 0
  · have ht : triggerStart n ⟨false, false, hw, lp, rp⟩ syncErr dataErr
        = (syncErr, ⟨false, false, 0, 0, 0⟩, [Event.submit_sync]) := by
      simp [triggerStart, if_pos hsync]
    rw [ht]
    refine ⟨?_, ?_, ?_, ?_, ?_⟩
    · intro i hi; simp at hi
    · intro i hi; simp at hi
    · intro _
      refine ⟨rfl, rfl, ?_, ?_⟩
      · intro hge; exact absurd hge (not_le.mpr hsync)
      · intro j hj _; simp at hj
    · intro _; exact Or.inl rfl
    · intro hge; exact absurd hge (not_le.mpr hsync)
  · rcases hmatch : (startLoop dataErr 0 n).1 with _ | t
    · have ht : triggerStart n ⟨false, false, hw, lp, rp⟩ syncErr dataErr
          = (0, ⟨true, true, 0, 0, 0⟩,
             Event.submit_sync :: (startLoop dataErr 0 n).2) := by
        simp [triggerStart, if_neg hsync, hmatch]
      rw [ht]
      refine ⟨?_, ?_, ?_, ?_, ?_⟩
      · intro i _
        simp [beforeB]
      · intro i hi
        have hloop : Event.submit_data i ∈ (startLoop dataErr 0 n).2 := by
          simpa using hi
        rw [beforeB_cons_ne _ _ _ _ (by simp) (by simp),
          beforeB_cons_ne _ _ _ _ (by simp) (by simp)]
        exact startLoop_before dataErr n 0 i hloop
      · intro hlt
        have h0 : (0 : Int) < 0 := hlt
        exact absurd h0 (by decide)
      · intro hlt
        have h0 : (0 : Int) < 0 := hlt
        exact absurd h0 (by decide)
      · intro _; exact ⟨rfl, rfl, rfl⟩
    · obtain ⟨hdt, hmem_t, hble⟩ := startLoop_fail dataErr n 0 t hmatch
      have ht : triggerStart n ⟨false, false, hw, lp, rp⟩ syncErr dataErr
          = (dataErr t, ⟨false, false, 0, 0, 0⟩,
             Event.submit_sync :: (startLoop dataErr 0 n).2 ++
               (List.range t).reverse.map Event.unlink_data ++
               [Event.unlink_sync]) := by
        simp [triggerStart, if_neg hsync, hmatch]
      rw [ht]
      refine ⟨?_, ?_, ?_, ?_, ?_⟩
      · intro i _
        simp [beforeB]
      · intro i hi
        have hloop : Event.submit_data i ∈ (startLoop dataErr 0 n).2 := by
          simpa using hi
        rw [beforeB_cons_ne _ _ _ _ (by simp) (by simp)]
        refine beforeB_append_left _ _ _ _ (beforeB_append_left _ _ _ _ ?_)
        rw [beforeB_cons_ne _ _ _ _ (by simp) (by simp)]
        exact startLoop_before dataErr n 0 i hloop
      · intro _
        refine ⟨rfl, rfl, ?_, ?_⟩
        · intro _
          simp
        · intro j hj hdj
          have hjl : Event.submit_data j ∈ (startLoop dataErr 0 n).2 := by
            simpa using hj
          have hjt : j ≤ t := hble j hjl
          have hjlt : j < t := by
            rcases Nat.lt_or_ge j t with h | h
            · exact h
            · have hjeq : j = t := by omega
              subst hjeq
              exact absurd hdj (not_le.mpr hdt)
          have h1 : Event.unlink_data j ∈
              (List.range t).reverse.map Event.unlink_data := by
            simp only [List.mem_map, List.mem_reverse, List.mem_range]
            exact ⟨j, hjlt, rfl⟩
          exact List.mem_cons_of_mem _
            (List.mem_append_left _ (List.mem_append_right _ h1))
      · intro _
        refine Or.inr ⟨t, ?_, rfl⟩
        exact List.mem_cons_of_mem _
          (List.mem_append_left _
            (List.mem_append_left _ (List.mem_cons_of_mem _ hmem_t)))
      · intro hge; exact absurd hge (not_le.mpr hdt)

/-- Witness for trigger_start_order_rollback: three data slots with the
submission of slot 1 failing with -ENOSPC (-28). -/
theorem trigger_start_order_rollback_witness :
    startTriggerContract 0 (fun i => if i = 1 then -28 else 0)
      (katana_pcm_trigger TriggerCmd.start false true true 3
        ⟨false, false, 5, 6, 7⟩ 0 (fun i => if i = 1 then -28 else 0)) := by
  exact trigger_start_order_rollback 3 5 6 7 0 (fun i => if i = 1 then -28 else 0)

/-- Claim C8: the stop trigger never attempts gate entry (its event trace
holds no gate_enter), returns 0 for either value of the disconnecting flag,
unlinks the sync URB and every data URB, and clears the running and
stream_started flags; whereas the start, pause and resume triggers all
attempt gate entry and return -ENODEV (-19) as soon as disconnect is in
progress. -/
theorem trigger_stop_always_succeeds (disconnecting : Bool) (n : Nat)
    (st : TrigState) (syncErr : Int) (dataErr : Nat → Int) :
    (katana_pcm_trigger TriggerCmd.stop disconnecting true true n st
      syncErr dataErr).1 = 0 ∧
    Event.gate_enter ∉
      (katana_pcm_trigger TriggerCmd.stop disconnecting true true n st
        syncErr dataErr).2.2 ∧
    Event.unlink_sync ∈
      (katana_pcm_trigger TriggerCmd.stop disconnecting true true n st
        syncErr dataErr).2.2 ∧
    (∀ i, i < n → Event.unlink_data i ∈
      (katana_pcm_trigger TriggerCmd.stop disconnecting true true n st
        syncErr dataErr).2.2) ∧
    (katana_pcm_trigger TriggerCmd.stop disconnecting true true n st
      syncErr dataErr).2.1.running = false ∧
    (katana_pcm_trigger TriggerCmd.stop disconnecting true true n st
      syncErr dataErr).2.1.stream_started = false ∧
    (katana_pcm_trigger TriggerCmd.start true true true n st
      syncErr dataErr).1 = -19 ∧
    (katana_pcm_trigger TriggerCmd.pause_push true true true n st
      syncErr dataErr).1 = -19 ∧
    (katana_pcm_trigger TriggerCmd.pause_release true true true n st
      syncErr dataErr).1 = -19 ∧
    Event.gate_enter ∈
      (katana_pcm_trigger TriggerCmd.start true true true n st
        syncErr dataErr).2.2 := by
  have hstop : katana_pcm_trigger TriggerCmd.stop disconnecting true true n st
      syncErr dataErr
      = (0, { st with running := false, stream_started := false },
         Event.unlink_sync :: (List.range n).map Event.unlink_data) := by
    cases disconnecting <;> rfl
  rw [hstop]
  refine ⟨rfl, ?_, by simp, ?_, rfl, rfl, rfl, rfl, rfl,
    List.mem_cons_self _ _⟩
  · intro hmem
    simp at hmem
  · intro i hi
    refine List.mem_cons_of_mem _ ?_
    simp only [List.mem_map, List.mem_range]
    exact ⟨i, hi, rfl⟩

/-- Witness for trigger_stop_always_succeeds: stop during disconnect with
two data slots. -/
theorem trigger_stop_always_succeeds_witness :
    (katana_pcm_trigger TriggerCmd.stop true true true 2
      ⟨true, true, 1, 2, 3⟩ 0 (fun _ => 0)).1 = 0 ∧
    Event.gate_enter ∉
      (katana_pcm_trigger TriggerCmd.stop true true true 2
        ⟨true, true, 1, 2, 3⟩ 0 (fun _ => 0)).2.2 ∧
    Event.unlink_sync ∈
      (katana_pcm_trigger TriggerCmd.stop true true true 2
        ⟨true, true, 1, 2, 3⟩ 0 (fun _ => 0)).2.2 ∧
    (∀ i, i < 2 → Event.unlink_data i ∈
      (katana_pcm_trigger TriggerCmd.stop true true true 2
        ⟨true, true, 1, 2, 3⟩ 0 (fun _ => 0)).2.2) ∧
    (katana_pcm_trigger TriggerCmd.stop true true true 2
      ⟨true, true, 1, 2, 3⟩ 0 (fun _ => 0)).2.1.running = false ∧
    (katana_pcm_trigger TriggerCmd.stop true true true 2
      ⟨true, true, 1, 2, 3⟩ 0 (fun _ => 0)).2.1.stream_started = false ∧
    (katana_pcm_trigger TriggerCmd.start true true true 2
      ⟨true, true, 1, 2, 3⟩ 0 (fun _ => 0)).1 = -19 ∧
    (katana_pcm_trigger TriggerCmd.pause_push true true true 2
      ⟨true, true, 1, 2, 3⟩ 0 (fun _ => 0)).1 = -19 ∧
    (katana_pcm_trigger TriggerCmd.pause_release true true true 2
      ⟨true, true, 1, 2, 3⟩ 0 (fun _ => 0)).1 = -19 ∧
    Event.gate_enter ∈
      (katana_pcm_trigger TriggerCmd.start true true true 2
        ⟨true, true, 1, 2, 3⟩ 0 (fun _ => 0)).2.2 := by
  exact trigger_stop_always_succeeds true 2 ⟨true, true, 1, 2, 3⟩ 0 (fun _ => 0)

end Katana
